import Mathlib

/-
Shallow embedding of the loopix-messaging provider server, helpers and client
(Go packages `server`, `helpers`, `client`).  Go byte slices and byte-strings
are modelled as `List Nat`; Go maps as association lists with Go's semantics
(a read of an absent key yields the zero value); the filesystem of per-client
inboxes as an association list from inbox id to a list of (file name, file
content) pairs; network sends are parameterised by a `sendOk` oracle saying
whether a given dial/write succeeds, and the packets actually handed to a
successful `Send` are collected in a list.
-/

namespace Loopix

/-- Go byte slice / byte string, one Nat (0..255) per byte. -/
abbrev Bytes := List Nat

/-- Flag constants of the provider server.  In the Go source these are the
string literals `"\xA2"`, `"\xC6"`, `"xA9"`, `"\xFF"`.  Note the third one:
the source literal is `"xA9"` without a backslash, i.e. the three ASCII
bytes of the characters x, A, 9 - not the single byte 0xA9. -/
def ASSIGNE_FLAG : Bytes := [0xA2]

/-- COMM_FLAG, the Go literal `"\xC6"`. -/
def COMM_FLAG : Bytes := [0xC6]

/-- TOKEN_FLAG, the Go literal `"xA9"` (no backslash): bytes of x, A, 9. -/
def TOKEN_FLAG : Bytes := [0x78, 0x41, 0x39]

/-- PULL_FLAG, the Go literal `"\xFF"`. -/
def PULL_FLAG : Bytes := [0xFF]

/-- Inner sphinx flag `"\xF1"` (relay), an inline literal in ReceivedPacket. -/
def RELAY_FLAG : Bytes := [0xF1]

/-- Inner sphinx flag `"\xF0"` (final hop), an inline literal in ReceivedPacket. -/
def FINAL_FLAG : Bytes := [0xF0]

/-- Modelled from the spec: `config.GeneralPacket`, the wire envelope of §6
(a flag-tagged frame); the `config` package is not under src/.  The envelope
is kept structured rather than serialised, as any self-delimiting encoding
is acceptable per the spec. -/
structure GeneralPacket where
  Flag : Bytes
  Data : Bytes
deriving DecidableEq

/-- Modelled from the spec: `config.WrapWithFlag`, which builds the envelope
carrying `data` tagged with `flag`; the `config` package is not under src/. -/
def WrapWithFlag (flag : Bytes) (data : Bytes) : GeneralPacket :=
  GeneralPacket.mk flag data

/-- Provider-side record of a registered client (`server.ClientRecord`). -/
structure ClientRecord where
  Id : String
  Host : String
  Port : String
  PubKey : Bytes
  Token : Bytes
deriving DecidableEq

/-- Go zero value of ClientRecord: empty strings and nil byte slices.
A read of an absent key from a Go `map[string]ClientRecord` yields this. -/
def zeroClientRecord : ClientRecord :=
  ClientRecord.mk "" "" "" [] []

/-- The provider's `assignedClients map[string]ClientRecord`. -/
abbrev AssignedClients := List (String × ClientRecord)

/-- Lookup in the map (first binding wins, as bindings are kept unique). -/
def mapLookup : AssignedClients → String → Option ClientRecord
  | [], _ => none
  | (k, v) :: rest, key => if k = key then some v else mapLookup rest key

/-- Go map read `m[k]`: the stored record, or the zero value when absent. -/
def mapGet (m : AssignedClients) (key : String) : ClientRecord :=
  (mapLookup m key).getD zeroClientRecord

/-- Go map write `m[k] = v`: overwrite the binding or add it. -/
def mapInsert : AssignedClients → String → ClientRecord → AssignedClients
  | [], key, v => [(key, v)]
  | (k, w) :: rest, key, v =>
    if k = key then (key, v) :: rest else (k, w) :: mapInsert rest key v

/-- AuthenticateUser compares the stored token with the presented one with
`bytes.Compare(...) == 0` (plain byte equality; nil equals empty). -/
def AuthenticateUser (assignedClients : AssignedClients) (clientId : String)
    (clientToken : Bytes) : Bool :=
  if (mapGet assignedClients clientId).Token = clientToken then true else false

/-- Client configuration carried by an ASSIGN request (`config.ClientConfig`,
already unmarshalled). -/
structure ClientConfig where
  Id : String
  Host : String
  Port : String
  PubKey : Bytes
deriving DecidableEq

/-- One inbox directory: file name to file content. -/
abbrev Inbox := List (String × Bytes)

/-- The `./inboxes` tree: inbox id to its directory listing.  An absent key
is a directory that does not exist (`helpers.DirExists` false). -/
abbrev Inboxes := List (String × Inbox)

/-- Directory lookup for `./inboxes/<id>` (first binding wins). -/
def lookupInbox : Inboxes → String → Option Inbox
  | [], _ => none
  | (k, v) :: rest, key => if k = key then some v else lookupInbox rest key

/-- Result of RegisterNewClient: the fresh token, the client's declared
address, and the updated provider state (error paths of proto unmarshalling
and directory IO are not taken on well-formed inputs). -/
structure RegisterResult where
  token : Bytes
  address : String
  clients : AssignedClients
  fs : Inboxes
deriving DecidableEq

/-- RegisterNewClient: computes the token `helpers.MD5Hash([]byte("TMP_Token" +
clientConf.Id))`, upserts the client record, and creates the inbox directory
when absent.  `helpers.MD5Hash` (the MD5 digest, a pure function of its
input) is not under src/ and is taken as a parameter `md5`; every theorem
below holds for an arbitrary such function. -/
def RegisterNewClient (md5 : String → Bytes) (clients : AssignedClients)
    (fs : Inboxes) (conf : ClientConfig) : RegisterResult :=
  let token := md5 ("TMP_Token" ++ conf.Id)
  let record := ClientRecord.mk conf.Id conf.Host conf.Port conf.PubKey token
  let clients1 := mapInsert clients conf.Id record
  let fs1 := match lookupInbox fs conf.Id with
    | some _ => fs
    | none => fs ++ [(conf.Id, [])]
  RegisterResult.mk token (conf.Host ++ ":" ++ conf.Port) clients1 fs1

/-- HandleAssignRequest: registers the client and wraps the returned token
with TOKEN_FLAG; the resulting envelope is sent to the client's declared
address.  The first component is that envelope. -/
def HandleAssignRequest (md5 : String → Bytes) (clients : AssignedClients)
    (fs : Inboxes) (conf : ClientConfig) : GeneralPacket × RegisterResult :=
  let r := RegisterNewClient md5 clients fs conf
  (WrapWithFlag TOKEN_FLAG r.token, r)

/-- Overwrite-or-create a file inside one inbox directory: `os.Create`
truncates an existing file of that name and otherwise creates a fresh one. -/
def overwriteFile : Inbox → String → Bytes → Inbox
  | [], name, content => [(name, content)]
  | (n, c) :: rest, name, content =>
    if n = name then (name, content) :: rest
    else (n, c) :: overwriteFile rest name content

/-- Replace the listing of an existing inbox directory (first binding). -/
def setInbox : Inboxes → String → Inbox → Inboxes
  | [], _, _ => []
  | (k, v) :: rest, key, inbox =>
    if k = key then (key, inbox) :: rest else (k, v) :: setInbox rest key inbox

/-- File lookup inside one inbox listing. -/
def lookupFile : Inbox → String → Option Bytes
  | [], _ => none
  | (n, c) :: rest, name => if n = name then some c else lookupFile rest name

/-- StoreMessage writes `message` to `./inboxes/<inboxId>/<messageId>.txt`
with `os.Create` + `Write`; if the inbox directory does not exist the
`os.Create` fails and the error is returned. -/
def StoreMessage (fs : Inboxes) (message : Bytes) (inboxId : String)
    (messageId : String) : Except String Inboxes :=
  match lookupInbox fs inboxId with
  | none => Except.error "no such inbox directory"
  | some files =>
    Except.ok (setInbox fs inboxId (overwriteFile files (messageId ++ ".txt") message))

/-- Send loop of FetchMessages over the directory listing, in enumeration
order: each file's content is wrapped with COMM_FLAG and handed to `Send`
towards `address`; on the first send failure the loop stops and the error is
returned, with the earlier successful sends recorded. -/
def fetchLoop (sendOk : GeneralPacket → String → Bool) (address : String) :
    Inbox → Option String × List (GeneralPacket × String)
  | [] => (none, [])
  | (_, dat) :: rest =>
    let msg := WrapWithFlag COMM_FLAG dat
    if sendOk msg address then
      let p := fetchLoop sendOk address rest
      (p.1, (msg, address) :: p.2)
    else (some "send failed", [])

/-- Outcome of FetchMessages: the returned signal ("NI" / "EI" / "SI", or ""
on an error), the returned error, the envelopes handed to successful sends
with their destination address, and the filesystem after the call. -/
structure FetchResult where
  signal : String
  error : Option String
  sent : List (GeneralPacket × String)
  fs : Inboxes
deriving DecidableEq

/-- Address of the client as looked up in assignedClients:
`p.assignedClients[clientId].Host + ":" + p.assignedClients[clientId].Port`. -/
def clientAddress (clients : AssignedClients) (clientId : String) : String :=
  (mapGet clients clientId).Host ++ ":" ++ (mapGet clients clientId).Port

/-- FetchMessages: "NI" when the inbox directory does not exist, "EI" when
it is empty, otherwise every stored message is read and sent to the client's
registered address wrapped with COMM_FLAG; "SI" when all sends succeed.
The filesystem is never written. -/
def FetchMessages (fs : Inboxes) (clients : AssignedClients)
    (sendOk : GeneralPacket → String → Bool) (clientId : String) : FetchResult :=
  match lookupInbox fs clientId with
  | none => FetchResult.mk "NI" none [] fs
  | some files =>
    if files.length = 0 then FetchResult.mk "EI" none [] fs
    else
      match fetchLoop sendOk (clientAddress clients clientId) files with
      | (none, sent) => FetchResult.mk "SI" none sent fs
      | (some e, sent) => FetchResult.mk "" (some e) sent fs

/-- Send oracle under which every dial and write succeeds (no IO errors). -/
def sendAlways : GeneralPacket → String → Bool := fun _ _ => true

/-- Concrete registered client used in witnesses and counterexamples. -/
def aliceRecord : ClientRecord :=
  ClientRecord.mk "alice" "localhost" "9999" [] [1, 2]

/-- The pull request `config.PullRequest` (already unmarshalled). -/
structure PullRequest where
  ClientId : String
  Token : Bytes
deriving DecidableEq

/-- Outcome of HandlePullRequest: returned error, envelopes handed to
successful sends, filesystem after the call. -/
structure PullResult where
  error : Option String
  sent : List (GeneralPacket × String)
  fs : Inboxes
deriving DecidableEq

/-- HandlePullRequest: authenticates the client's token; on success it runs
FetchMessages (logging the returned signal), on failure it returns the error
"authentication went wrong" without touching the inbox and without sending
anything back to the client. -/
def HandlePullRequest (fs : Inboxes) (clients : AssignedClients)
    (sendOk : GeneralPacket → String → Bool) (request : PullRequest) : PullResult :=
  if AuthenticateUser clients request.ClientId request.Token then
    let r := FetchMessages fs clients sendOk request.ClientId
    PullResult.mk r.error r.sent r.fs
  else
    PullResult.mk (some "authentication went wrong") [] fs

/-- Next-hop data produced by the sphinx unwrap (`sphinx.Hop`). -/
structure Hop where
  Id : String
  Address : String
deriving DecidableEq

/-- Outcome of the post-unwrap dispatch of ReceivedPacket. -/
structure DispatchResult where
  error : Option String
  sent : List (GeneralPacket × String)
  fs : Inboxes
deriving DecidableEq

/-- ForwardPacket wraps the sphinx packet with COMM_FLAG and hands it to
`Send` towards `address`. -/
def ForwardPacket (sendOk : GeneralPacket → String → Bool) (sphinxPacket : Bytes)
    (address : String) : Option String × List (GeneralPacket × String) :=
  let packetBytes := WrapWithFlag COMM_FLAG sphinxPacket
  if sendOk packetBytes address then (none, [(packetBytes, address)])
  else (some "send failed", [])

/-- ReceivedPacket, after the sphinx unwrap has produced the decrypted
packet `dePacket`, the next hop and the inner flag: flag "\xF1" forwards via
ForwardPacket to the next hop's address, flag "\xF0" stores the packet under
the fixed message id "TMP_MESSAGE_ID" in the inbox of the next hop's id, and
any other flag is logged and dropped with a nil error.  The sphinx unwrap
itself (`ProcessPacket`, package `node`) is not under src/, so its outputs
are taken as parameters. -/
def ReceivedPacket (fs : Inboxes) (sendOk : GeneralPacket → String → Bool)
    (dePacket : Bytes) (nextHop : Hop) (flag : Bytes) : DispatchResult :=
  if flag = RELAY_FLAG then
    let p := ForwardPacket sendOk dePacket nextHop.Address
    DispatchResult.mk p.1 p.2 fs
  else if flag = FINAL_FLAG then
    match StoreMessage fs dePacket nextHop.Id "TMP_MESSAGE_ID" with
    | Except.ok fs1 => DispatchResult.mk none [] fs1
    | Except.error e => DispatchResult.mk (some e) [] fs
  else
    DispatchResult.mk none [] fs

/-- Public data of one mix (`config.MixPubs`; the `config` package is not
under src/, the fields follow the spec's MixDescriptor). -/
structure MixPubs where
  Id : String
  Host : String
  Port : String
  PubKey : Bytes
deriving DecidableEq

/-- Go runtime panic raised by helpers.RandomSample when the requested
length exceeds the slice length (`permuted[:length]` out of range). -/
inductive GoPanic where
  | sliceOutOfRange
deriving DecidableEq

/-- helpers.Permute: `rand.Perm(len(slice))` draws a permutation `perm` of
the indices and the loop sets `permutedData[perm[i]] = slice[i]`, so
position v of the result holds `slice[perm⁻¹ v]`.  The drawn permutation is
the parameter σ (the claims hold for every RNG outcome). -/
def Permute (slice : List MixPubs) (σ : Equiv.Perm (Fin slice.length)) :
    List MixPubs :=
  List.ofFn (fun v => slice.get (σ.symm v))

/-- helpers.RandomSample: permute the slice and take the prefix
`permuted[:length]`.  Go slicing panics when `length` exceeds the slice's
capacity (here its length); the panic is modelled as the error value.
A negative Go `length` would also panic; lengths are Nat here. -/
def RandomSample (slice : List MixPubs) (σ : Equiv.Perm (Fin slice.length))
    (length : Nat) : Except GoPanic (List MixPubs) :=
  let permuted := Permute slice σ
  if length ≤ permuted.length then Except.ok (permuted.take length)
  else Except.error GoPanic.sliceOutOfRange

/-- Concrete mix used in witnesses and counterexamples. -/
def mixA : MixPubs := MixPubs.mk "m1" "h1" "1" []

/-- What one iteration of an accept loop does after the accept returns:
either the loop goes on to the next accept, or the process terminates with
an exit code. -/
inductive LoopAction where
  | next
  | exitProcess (code : Nat)
deriving DecidableEq

/-- One iteration of the provider's ListenForIncomingConnections: an accept
error is logged and the loop continues; on success the connection is
handled and any handler error is logged, and the loop continues.  The
outcome of the iteration (accept failure, or the handler's error result) is
the argument. -/
def providerAcceptStep : Except String (Option String) → LoopAction
  | Except.error _ => LoopAction.next
  | Except.ok _ => LoopAction.next

/-- One iteration of the client's ListenForIncomingConnections: an accept
error prints the error and calls `os.Exit(1)`; on success the connection is
handled in a goroutine and the loop continues. -/
def clientAcceptStep : Except String (Option String) → LoopAction
  | Except.error _ => LoopAction.exitProcess 1
  | Except.ok _ => LoopAction.next

/-- Run an accept loop over a stream of per-connection outcomes: returns
the exit code if the loop terminated the process, and how many outcomes
were consumed before that. -/
def runAcceptLoop (step : Except String (Option String) → LoopAction) :
    List (Except String (Option String)) → Option Nat × Nat
  | [] => (none, 0)
  | r :: rs =>
    match step r with
    | LoopAction.next =>
      let p := runAcceptLoop step rs
      (p.1, p.2 + 1)
    | LoopAction.exitProcess code => (some code, 1)

theorem mapLookup_insert (m : AssignedClients) (key : String) (v : ClientRecord) :
    mapLookup (mapInsert m key v) key = some v := by
  induction m with
  | nil => simp [mapInsert, mapLookup]
  | cons hd tl ih =>
    obtain ⟨k, w⟩ := hd
    by_cases h : k = key
    · simp [mapInsert, h, mapLookup]
    · simp [mapInsert, h, mapLookup, ih]

theorem mapGet_insert (m : AssignedClients) (key : String) (v : ClientRecord) :
    mapGet (mapInsert m key v) key = v := by
  simp [mapGet, mapLookup_insert]

theorem lookupInbox_setInbox (fs : Inboxes) (key : String) (v w : Inbox)
    (h : lookupInbox fs key = some w) :
    lookupInbox (setInbox fs key v) key = some v := by
  induction fs with
  | nil => simp [lookupInbox] at h
  | cons hd tl ih =>
    obtain ⟨k, u⟩ := hd
    by_cases hk : k = key
    · simp [setInbox, hk, lookupInbox]
    · simp only [lookupInbox, hk, if_false] at h
      simp [setInbox, hk, lookupInbox, ih h]

theorem lookupFile_overwriteFile (files : Inbox) (name : String) (content : Bytes) :
    lookupFile (overwriteFile files name content) name = some content := by
  induction files with
  | nil => simp [overwriteFile, lookupFile]
  | cons hd tl ih =>
    obtain ⟨n, c⟩ := hd
    by_cases hn : n = name
    · simp [overwriteFile, hn, lookupFile]
    · simp [overwriteFile, hn, lookupFile, ih]

theorem overwriteFile_not_mem (files : Inbox) (name : String) (content : Bytes)
    (h : name ∉ files.map Prod.fst) :
    overwriteFile files name content = files ++ [(name, content)] := by
  induction files with
  | nil => rfl
  | cons hd tl ih =>
    obtain ⟨n, c⟩ := hd
    simp only [List.map_cons, List.mem_cons, not_or] at h
    have hn : n ≠ name := fun e => h.1 e.symm
    simp [overwriteFile, hn, ih h.2]

theorem overwriteFile_append (files : Inbox) (name : String) (c1 c2 : Bytes)
    (h : name ∉ files.map Prod.fst) :
    overwriteFile (files ++ [(name, c1)]) name c2 = files ++ [(name, c2)] := by
  induction files with
  | nil => simp [overwriteFile]
  | cons hd tl ih =>
    obtain ⟨n, c⟩ := hd
    simp only [List.map_cons, List.mem_cons, not_or] at h
    have hn : n ≠ name := fun e => h.1 e.symm
    simp [overwriteFile, hn, ih h.2]

theorem fetchLoop_sendAlways (address : String) (files : Inbox) :
    fetchLoop sendAlways address files =
      (none, files.map (fun f => (WrapWithFlag COMM_FLAG f.2, address))) := by
  induction files with
  | nil => rfl
  | cons hd tl ih =>
    obtain ⟨n, dat⟩ := hd
    simp [fetchLoop, sendAlways, ih]

theorem FetchMessages_fs (fs : Inboxes) (clients : AssignedClients)
    (sendOk : GeneralPacket → String → Bool) (clientId : String) :
    (FetchMessages fs clients sendOk clientId).fs = fs := by
  unfold FetchMessages
  cases h : lookupInbox fs clientId with
  | none => rfl
  | some files =>
    by_cases hl : files.length = 0
    · simp [hl]
    · simp only [hl, if_false]
      cases hf : fetchLoop sendOk (clientAddress clients clientId) files with
      | mk e sent => cases e <;> simp

theorem FetchMessages_none (fs : Inboxes) (clients : AssignedClients)
    (sendOk : GeneralPacket → String → Bool) (clientId : String)
    (h : lookupInbox fs clientId = none) :
    FetchMessages fs clients sendOk clientId = FetchResult.mk "NI" none [] fs := by
  unfold FetchMessages
  rw [h]

theorem FetchMessages_empty (fs : Inboxes) (clients : AssignedClients)
    (sendOk : GeneralPacket → String → Bool) (clientId : String)
    (h : lookupInbox fs clientId = some []) :
    FetchMessages fs clients sendOk clientId = FetchResult.mk "EI" none [] fs := by
  unfold FetchMessages
  rw [h]
  rfl

theorem FetchMessages_sendAlways_full (fs : Inboxes) (clients : AssignedClients)
    (clientId : String) (files : Inbox)
    (h : lookupInbox fs clientId = some files) (hne : files ≠ []) :
    FetchMessages fs clients sendAlways clientId =
      FetchResult.mk "SI" none
        (files.map (fun f => (WrapWithFlag COMM_FLAG f.2, clientAddress clients clientId)))
        fs := by
  unfold FetchMessages
  rw [h]
  have hl : ¬ files.length = 0 := by
    intro h0
    exact hne (List.length_eq_zero.mp h0)
  simp [hl, fetchLoop_sendAlways]

/-- C1: the claim says each registration generates a token unique to that
registration, so after registering the same id twice the first token no
longer authenticates while the second does.  The code computes the token as
the MD5 digest of the fixed string "TMP_Token" ++ id, a deterministic
function of the id alone: both registrations return the same token and the
first token still authenticates after the second registration. -/
theorem registration_token_is_deterministic (md5 : String → Bytes)
    (clients : AssignedClients) (fs : Inboxes) (conf : ClientConfig) :
    (RegisterNewClient md5 clients fs conf).token =
      (RegisterNewClient md5 (RegisterNewClient md5 clients fs conf).clients
        (RegisterNewClient md5 clients fs conf).fs conf).token ∧
    AuthenticateUser
      (RegisterNewClient md5 (RegisterNewClient md5 clients fs conf).clients
        (RegisterNewClient md5 clients fs conf).fs conf).clients
      conf.Id (RegisterNewClient md5 clients fs conf).token = true := by
  constructor
  · rfl
  · simp [AuthenticateUser, RegisterNewClient, mapGet_insert]

/-- C3: for a client id absent from assignedClients, the zero-value record's
token is the nil byte slice, and `bytes.Compare(nil, presented) == 0` holds
for an empty presented token, so authentication succeeds. -/
theorem authenticate_absent_id_empty_token (clients : AssignedClients)
    (id : String) (h : mapLookup clients id = none) :
    AuthenticateUser clients id [] = true := by
  simp [AuthenticateUser, mapGet, h, zeroClientRecord]

/-- Witness for C3 at the empty map and id "alice". -/
theorem authenticate_absent_id_empty_token_witness :
    mapLookup [] "alice" = none ∧ AuthenticateUser [] "alice" [] = true :=
  ⟨rfl, authenticate_absent_id_empty_token [] "alice" rfl⟩

/-- C5: three of the four wire flags are the single bytes the claim states,
but TOKEN_FLAG is the Go literal "xA9" - the backslash is missing - so the
token envelope returned after registration is tagged with the three ASCII
bytes 0x78 0x41 0x39 (length 3), not with the single byte 0xA9. -/
theorem token_flag_is_not_single_byte (md5 : String → Bytes)
    (clients : AssignedClients) (fs : Inboxes) (conf : ClientConfig) :
    ASSIGNE_FLAG = [0xA2] ∧ COMM_FLAG = [0xC6] ∧ PULL_FLAG = [0xFF] ∧
    (HandleAssignRequest md5 clients fs conf).1.Flag = [0x78, 0x41, 0x39] ∧
    (HandleAssignRequest md5 clients fs conf).1.Flag.length = 3 :=
  ⟨rfl, rfl, rfl, rfl, rfl⟩

/-- C2 counterexample: with one stored message and every send succeeding,
the fetch completes without error and the message has been sent, yet the
inbox still contains it - the code never deletes, so a message whose send
completed without error is not removed, contrary to the claim. -/
theorem fetch_successful_send_leaves_message_counterexample :
    (FetchMessages [("alice", [("m1.txt", [104, 105])])] [("alice", aliceRecord)]
        sendAlways "alice").error = none ∧
    (FetchMessages [("alice", [("m1.txt", [104, 105])])] [("alice", aliceRecord)]
        sendAlways "alice").sent =
      [(WrapWithFlag COMM_FLAG [104, 105], "localhost:9999")] ∧
    lookupInbox (FetchMessages [("alice", [("m1.txt", [104, 105])])]
        [("alice", aliceRecord)] sendAlways "alice").fs "alice" =
      some [("m1.txt", [104, 105])] := by
  refine ⟨rfl, ?_, rfl⟩
  rfl

/-- C2 (amended): a fetch never removes any message from the inbox - the
filesystem is unchanged whatever the send outcomes - so messages whose send
fails are left in place, and a stored message is delivered again by every
subsequent fetch rather than at most once. -/
theorem fetch_never_deletes (fs : Inboxes) (clients : AssignedClients)
    (sendOk : GeneralPacket → String → Bool) (clientId : String) :
    (FetchMessages fs clients sendOk clientId).fs = fs ∧
    FetchMessages (FetchMessages fs clients sendOk clientId).fs clients sendOk clientId =
      FetchMessages fs clients sendOk clientId := by
  refine ⟨FetchMessages_fs fs clients sendOk clientId, ?_⟩
  rw [FetchMessages_fs fs clients sendOk clientId]

/-- C4 counterexample: a pull request whose token fails authentication makes
the provider return the error "authentication went wrong" and send nothing
at all - in particular no auth-failed envelope goes back to the client. -/
theorem pull_auth_failure_counterexample :
    (HandlePullRequest [("alice", [("m1.txt", [104, 105])])] [("alice", aliceRecord)]
        sendAlways (PullRequest.mk "alice" [9])).sent = [] ∧
    (HandlePullRequest [("alice", [("m1.txt", [104, 105])])] [("alice", aliceRecord)]
        sendAlways (PullRequest.mk "alice" [9])).error =
      some "authentication went wrong" := by
  constructor <;> rfl

/-- C4 (amended): on a pull request whose token fails authentication the
provider does not fetch the inbox and sends nothing back; HandlePullRequest
returns the error "authentication went wrong", which the connection handler
only logs. -/
theorem pull_auth_failure_returns_error (fs : Inboxes) (clients : AssignedClients)
    (sendOk : GeneralPacket → String → Bool) (request : PullRequest)
    (h : AuthenticateUser clients request.ClientId request.Token = false) :
    HandlePullRequest fs clients sendOk request =
      PullResult.mk (some "authentication went wrong") [] fs := by
  simp [HandlePullRequest, h]

/-- Witness for the amended C4 at a concrete failing token. -/
theorem pull_auth_failure_returns_error_witness :
    AuthenticateUser [("alice", aliceRecord)] "alice" [9] = false ∧
    HandlePullRequest [] [("alice", aliceRecord)] sendAlways
        (PullRequest.mk "alice" [9]) =
      PullResult.mk (some "authentication went wrong") [] [] :=
  ⟨by decide,
   pull_auth_failure_returns_error [] [("alice", aliceRecord)] sendAlways
     (PullRequest.mk "alice" [9]) (by decide)⟩

/-- C6: both stores through the final-hop path of ReceivedPacket use the
fixed message id "TMP_MESSAGE_ID", so on an inbox that holds no store-path
file the first store creates the single file TMP_MESSAGE_ID.txt and the
second store overwrites it: after two stores the inbox holds exactly one
store-path file, containing the second message. -/
theorem store_path_single_fixed_message_id (fs : Inboxes)
    (sendOk : GeneralPacket → String → Bool) (hop : Hop) (files : Inbox)
    (m1 m2 : Bytes) (h : lookupInbox fs hop.Id = some files)
    (hn : "TMP_MESSAGE_ID.txt" ∉ files.map Prod.fst) :
    (ReceivedPacket fs sendOk m1 hop FINAL_FLAG).error = none ∧
    lookupInbox (ReceivedPacket fs sendOk m1 hop FINAL_FLAG).fs hop.Id =
      some (files ++ [("TMP_MESSAGE_ID.txt", m1)]) ∧
    (ReceivedPacket (ReceivedPacket fs sendOk m1 hop FINAL_FLAG).fs
        sendOk m2 hop FINAL_FLAG).error = none ∧
    lookupInbox (ReceivedPacket (ReceivedPacket fs sendOk m1 hop FINAL_FLAG).fs
        sendOk m2 hop FINAL_FLAG).fs hop.Id =
      some (files ++ [("TMP_MESSAGE_ID.txt", m2)]) := by
  have hflag : (FINAL_FLAG = RELAY_FLAG) = False := by decide
  have h1 : ReceivedPacket fs sendOk m1 hop FINAL_FLAG =
      DispatchResult.mk none []
        (setInbox fs hop.Id (files ++ [("TMP_MESSAGE_ID.txt", m1)])) := by
    simp [ReceivedPacket, hflag, StoreMessage, h, overwriteFile_not_mem files _ m1 hn]
  have hlook1 : lookupInbox (setInbox fs hop.Id (files ++ [("TMP_MESSAGE_ID.txt", m1)]))
      hop.Id = some (files ++ [("TMP_MESSAGE_ID.txt", m1)]) :=
    lookupInbox_setInbox fs hop.Id _ files h
  have h2 : ReceivedPacket (setInbox fs hop.Id (files ++ [("TMP_MESSAGE_ID.txt", m1)]))
      sendOk m2 hop FINAL_FLAG =
      DispatchResult.mk none []
        (setInbox (setInbox fs hop.Id (files ++ [("TMP_MESSAGE_ID.txt", m1)]))
          hop.Id (files ++ [("TMP_MESSAGE_ID.txt", m2)])) := by
    simp [ReceivedPacket, hflag, StoreMessage, hlook1, overwriteFile_append files _ m1 m2 hn]
  rw [h1]
  refine ⟨rfl, hlook1, ?_, ?_⟩
  · rw [h2]
  · rw [h2]
    exact lookupInbox_setInbox _ hop.Id _ _ hlook1

/-- Witness for C6 on a fresh empty inbox: after two final-hop stores the
inbox holds exactly the single file TMP_MESSAGE_ID.txt with the second
message. -/
theorem store_path_single_fixed_message_id_witness :
    lookupInbox [("bob", [])] "bob" = some [] ∧
    lookupInbox (ReceivedPacket (ReceivedPacket [("bob", [])] sendAlways [1]
        (Hop.mk "bob" "b:1") FINAL_FLAG).fs sendAlways [2]
        (Hop.mk "bob" "b:1") FINAL_FLAG).fs "bob" =
      some [("TMP_MESSAGE_ID.txt", [2])] :=
  ⟨rfl,
   (store_path_single_fixed_message_id [("bob", [])] sendAlways
     (Hop.mk "bob" "b:1") [] [1] [2] rfl (by decide)).2.2.2⟩

/-- C8: dispatch of a successfully unwrapped packet - with inner flag
"\xF1" (relay) the decrypted packet is forwarded, wrapped with COMM_FLAG, to
the next hop's address; with inner flag "\xF0" (final) it is stored in the
inbox of the recipient id carried by the routing block; any other inner flag
is dropped with a nil error, nothing sent and the filesystem untouched. -/
theorem dispatch_by_inner_flag (fs : Inboxes)
    (sendOk : GeneralPacket → String → Bool) (dePacket : Bytes)
    (nextHop : Hop) (flag : Bytes) :
    (flag = RELAY_FLAG →
      sendOk (WrapWithFlag COMM_FLAG dePacket) nextHop.Address = true →
      ReceivedPacket fs sendOk dePacket nextHop flag =
        DispatchResult.mk none
          [(WrapWithFlag COMM_FLAG dePacket, nextHop.Address)] fs) ∧
    (flag = FINAL_FLAG → ∀ files, lookupInbox fs nextHop.Id = some files →
      (ReceivedPacket fs sendOk dePacket nextHop flag).error = none ∧
      (ReceivedPacket fs sendOk dePacket nextHop flag).sent = [] ∧
      lookupFile ((lookupInbox (ReceivedPacket fs sendOk dePacket nextHop flag).fs
          nextHop.Id).getD []) "TMP_MESSAGE_ID.txt" = some dePacket) ∧
    (flag ≠ RELAY_FLAG → flag ≠ FINAL_FLAG →
      ReceivedPacket fs sendOk dePacket nextHop flag =
        DispatchResult.mk none [] fs) := by
  refine ⟨?_, ?_, ?_⟩
  · intro hf hsend
    subst hf
    simp [ReceivedPacket, ForwardPacket, hsend]
  · intro hf files h
    subst hf
    have hflag : (FINAL_FLAG = RELAY_FLAG) = False := by decide
    have hdisp : ReceivedPacket fs sendOk dePacket nextHop FINAL_FLAG =
        DispatchResult.mk none []
          (setInbox fs nextHop.Id
            (overwriteFile files "TMP_MESSAGE_ID.txt" dePacket)) := by
      simp [ReceivedPacket, hflag, StoreMessage, h]
    rw [hdisp]
    refine ⟨rfl, rfl, ?_⟩
    rw [lookupInbox_setInbox fs nextHop.Id _ files h]
    exact lookupFile_overwriteFile files _ dePacket
  · intro h1 h2
    simp [ReceivedPacket, h1, h2]

/-- Witness for C8 covering the three dispatch branches at concrete inputs. -/
theorem dispatch_by_inner_flag_witness :
    ReceivedPacket [] sendAlways [7] (Hop.mk "bob" "b:1") RELAY_FLAG =
      DispatchResult.mk none [(WrapWithFlag COMM_FLAG [7], "b:1")] [] ∧
    lookupFile ((lookupInbox (ReceivedPacket [("bob", [])] sendAlways [7]
        (Hop.mk "bob" "b:1") FINAL_FLAG).fs "bob").getD [])
      "TMP_MESSAGE_ID.txt" = some [7] ∧
    ReceivedPacket [] sendAlways [7] (Hop.mk "bob" "b:1") [0xAB] =
      DispatchResult.mk none [] [] :=
  ⟨(dispatch_by_inner_flag [] sendAlways [7] (Hop.mk "bob" "b:1") RELAY_FLAG).1 rfl rfl,
   ((dispatch_by_inner_flag [("bob", [])] sendAlways [7] (Hop.mk "bob" "b:1")
       FINAL_FLAG).2.1 rfl [] rfl).2.2,
   (dispatch_by_inner_flag [] sendAlways [7] (Hop.mk "bob" "b:1")
       [0xAB]).2.2 (by decide) (by decide)⟩

/-- C9: under an error-free send oracle a fetch returns no error and exactly
one of the three signals - "NI" when the inbox directory does not exist,
"EI" when it exists and is empty, and "SI" after every stored message has
been sent, wrapped with COMM_FLAG, to the client's registered address. -/
theorem fetch_signal_trichotomy (fs : Inboxes) (clients : AssignedClients)
    (clientId : String) :
    ((FetchMessages fs clients sendAlways clientId).error = none) ∧
    ((FetchMessages fs clients sendAlways clientId).signal = "NI" ∨
     (FetchMessages fs clients sendAlways clientId).signal = "EI" ∨
     (FetchMessages fs clients sendAlways clientId).signal = "SI") ∧
    (lookupInbox fs clientId = none →
      FetchMessages fs clients sendAlways clientId =
        FetchResult.mk "NI" none [] fs) ∧
    (lookupInbox fs clientId = some [] →
      FetchMessages fs clients sendAlways clientId =
        FetchResult.mk "EI" none [] fs) ∧
    (∀ files, lookupInbox fs clientId = some files → files ≠ [] →
      FetchMessages fs clients sendAlways clientId =
        FetchResult.mk "SI" none
          (files.map (fun f => (WrapWithFlag COMM_FLAG f.2,
            clientAddress clients clientId))) fs) := by
  have hcases : (FetchMessages fs clients sendAlways clientId).error = none ∧
      ((FetchMessages fs clients sendAlways clientId).signal = "NI" ∨
       (FetchMessages fs clients sendAlways clientId).signal = "EI" ∨
       (FetchMessages fs clients sendAlways clientId).signal = "SI") := by
    cases h : lookupInbox fs clientId with
    | none =>
      rw [FetchMessages_none fs clients sendAlways clientId h]
      exact ⟨rfl, Or.inl rfl⟩
    | some files =>
      cases files with
      | nil =>
        rw [FetchMessages_empty fs clients sendAlways clientId h]
        exact ⟨rfl, Or.inr (Or.inl rfl)⟩
      | cons f rest =>
        rw [FetchMessages_sendAlways_full fs clients clientId (f :: rest) h
          (by simp)]
        exact ⟨rfl, Or.inr (Or.inr rfl)⟩
  refine ⟨hcases.1, hcases.2, ?_, ?_, ?_⟩
  · exact FetchMessages_none fs clients sendAlways clientId
  · exact FetchMessages_empty fs clients sendAlways clientId
  · exact fun files h hne => FetchMessages_sendAlways_full fs clients clientId files h hne

/-- Witness for C9 hitting each of the three signals at concrete inputs. -/
theorem fetch_signal_trichotomy_witness :
    FetchMessages [] [] sendAlways "alice" = FetchResult.mk "NI" none [] [] ∧
    FetchMessages [("alice", [])] [] sendAlways "alice" =
      FetchResult.mk "EI" none [] [("alice", [])] ∧
    FetchMessages [("alice", [("m1.txt", [5])])] [("alice", aliceRecord)]
        sendAlways "alice" =
      FetchResult.mk "SI" none
        [(WrapWithFlag COMM_FLAG [5],
          clientAddress [("alice", aliceRecord)] "alice")]
        [("alice", [("m1.txt", [5])])] :=
  ⟨(fetch_signal_trichotomy [] [] "alice").2.2.1 rfl,
   (fetch_signal_trichotomy [("alice", [])] [] "alice").2.2.2.1 rfl,
   (fetch_signal_trichotomy [("alice", [("m1.txt", [5])])]
       [("alice", aliceRecord)] "alice").2.2.2.2 [("m1.txt", [5])] rfl
     (by decide)⟩

/-- C7 counterexample: asked for 2 mixes out of a slice of 1, RandomSample
hits the Go slice-bounds panic of `permuted[:length]` - the code crashes
instead of failing with a BadSample error (no such error exists in the
code). -/
theorem sample_short_slice_counterexample :
    RandomSample [mixA] (Equiv.refl (Fin 1)) 2 =
      Except.error GoPanic.sliceOutOfRange := by
  rfl

/-- C7 (amended): when the slice holds at least L mixes, RandomSample
returns L entries of the slice, pairwise distinct whenever the slice's
entries are; when the slice holds fewer than L mixes it panics with a
slice-bounds error (modelled as the GoPanic value) instead of returning a
BadSample error. -/
theorem sample_path_length_and_distinctness (slice : List MixPubs)
    (σ : Equiv.Perm (Fin slice.length)) (L : Nat) :
    (L ≤ slice.length →
      ∃ out, RandomSample slice σ L = Except.ok out ∧ out.length = L ∧
        (slice.Nodup → out.Nodup) ∧ ∀ x ∈ out, x ∈ slice) ∧
    (slice.length < L →
      RandomSample slice σ L = Except.error GoPanic.sliceOutOfRange) := by
  have hlen : (Permute slice σ).length = slice.length := by
    simp [Permute]
  constructor
  · intro hL
    refine ⟨(Permute slice σ).take L, ?_, ?_, ?_, ?_⟩
    · unfold RandomSample
      rw [if_pos (by rw [hlen]; exact hL)]
    · rw [List.length_take, hlen]
      exact Nat.min_eq_left hL
    · intro hnd
      have hpermnd : (Permute slice σ).Nodup := by
        refine List.nodup_ofFn.mpr ?_
        intro a b hab
        exact σ.symm.injective (List.nodup_iff_injective_get.mp hnd hab)
      exact List.Nodup.sublist (List.take_sublist L _) hpermnd
    · intro x hx
      have hx2 : x ∈ Permute slice σ := List.take_subset L _ hx
      rw [Permute, List.mem_ofFn] at hx2
      obtain ⟨i, hi⟩ := hx2
      rw [← hi]
      exact List.get_mem slice _ _
  · intro hL
    unfold RandomSample
    rw [if_neg (by rw [hlen]; omega)]

/-- Witness for the amended C7: the crash branch at a slice of one mix and
a requested length of two. -/
theorem sample_path_length_and_distinctness_witness :
    ([mixA] : List MixPubs).length < 2 ∧
    RandomSample [mixA] (Equiv.refl (Fin 1)) 2 =
      Except.error GoPanic.sliceOutOfRange :=
  ⟨by decide,
   (sample_path_length_and_distinctness [mixA] (Equiv.refl (Fin 1)) 2).2
     (by decide)⟩

/-- C10 counterexample: the client's accept loop exits the process with
code 1 on the first accept error, so the second pending connection is never
accepted - the claim's "on the client alike" fails. -/
theorem client_accept_loop_exits_counterexample :
    runAcceptLoop clientAcceptStep
        [Except.error "accept failed", Except.ok none] = (some 1, 1) := by
  rfl

/-- C10 (amended): the provider's accept loop never terminates on a
per-connection error - every outcome in the stream, accept failure or
handler error alike, is logged and the loop consumes the whole stream
without exiting - while the client's accept loop calls os.Exit(1) as soon
as an accept fails. -/
theorem accept_loop_termination
    (outcomes : List (Except String (Option String))) (e : String) :
    (runAcceptLoop providerAcceptStep outcomes).1 = none ∧
    (runAcceptLoop providerAcceptStep outcomes).2 = outcomes.length ∧
    clientAcceptStep (Except.error e) = LoopAction.exitProcess 1 := by
  have hrun : runAcceptLoop providerAcceptStep outcomes = (none, outcomes.length) := by
    induction outcomes with
    | nil => rfl
    | cons r rs ih => cases r <;> simp [runAcceptLoop, providerAcceptStep, ih]
  rw [hrun]
  exact ⟨rfl, rfl, rfl⟩

end Loopix
